import Mathlib

/-!
# Verification of the pino-telegram-transport delivery pipeline

Shallow embedding of the delivery pipeline of `pino-telegram-transport`
(a pino log transport forwarding records to the Telegram Bot API), together
with proofs checking the natural-language specification against the code.

Embedded components (file / symbol names follow the TypeScript source):

* `src/telegram-client.ts` — `TelegramClient.executeWithRetry`,
  `isRetryable`, `resolveRetryDelay`, `resolveStatusCode`,
  `extractRetryAfter`: the retry state machine with exponential backoff.
* `src/rate-limiter.ts` — `RateLimiter.wait` and `TaskQueue.push/onIdle`.
* `src/formatter.ts` — `resolveLevel`, `extractExtras`, `ensureMaxLength`.
* `src/utils.ts` — `truncate`, `normalizeOptions`, `normalizeTargets`,
  `resolveMinLevel`.

JavaScript numbers are modelled as exact rationals (`ℚ`) — the arithmetic
in these code paths (max/min/multiplication of small delay values) is exact
at the granularity the specification speaks about.  `undefined` is `none`.
-/

namespace PinoTelegram

/-- JS `Math.round` for a non-negative rational: round half away from zero,
i.e. `⌊q + 1/2⌋` (the code only rounds values already checked `≥ 0`). -/
def jsRound (q : ℚ) : ℤ := ⌊q + 1/2⌋

/-! ## Delivery errors (`src/telegram-client.ts`)

`TelegramDeliveryError` carries an optional HTTP `status`, and an optional
`response : TelegramErrorResponse` whose `error_code` and
`parameters.retry_after` are the fields the retry machinery reads.
`retry_after` is `number | string` in the wire type; a string is passed
through JS `Number(...)`, which we model by carrying the parse result
(`none` for `NaN`, i.e. a non-numeric string). -/

/-- The `parameters.retry_after` value of a Telegram error response:
either a number, or a string together with the result of `Number(s)`
(`none` when the string does not parse, i.e. `NaN`). -/
inductive RetryAfterValue where
  | num (q : ℚ)
  | str (parsed : Option ℚ)
deriving DecidableEq, Repr

/-- The fields of a `TelegramDeliveryError` that the retry logic inspects:
`status` (HTTP status, `none` when the failure was network-level),
`response.error_code`, and `response.parameters.retry_after`. -/
structure TelegramErrorInfo where
  status : Option ℤ
  errorCode : Option ℤ
  retryAfter : Option RetryAfterValue
deriving DecidableEq, Repr

/-- An error thrown by a send attempt: either a `TelegramDeliveryError`
(the only class the client itself throws), or any other thrown value
(`instanceof TelegramDeliveryError` fails, e.g. an error from a custom
user-supplied `send` function). -/
inductive SendError where
  | telegram (e : TelegramErrorInfo)
  | other
deriving DecidableEq, Repr

/-- `TelegramClient.resolveStatusCode`: the HTTP `status` when it is a
number, otherwise `response.error_code` when that is a number. -/
def resolveStatusCode (e : TelegramErrorInfo) : Option ℤ :=
  match e.status with
  | some s => some s
  | none => e.errorCode

/-- `TelegramClient.extractRetryAfter`: reads
`response.parameters.retry_after`; coerces a string via `Number`;
rejects `NaN` and negative values; otherwise returns
`Math.round(numeric * 1000)` milliseconds. -/
def extractRetryAfter (e : TelegramErrorInfo) : Option ℚ :=
  match e.retryAfter with
  | none => none
  | some candidate =>
    let numeric : Option ℚ :=
      match candidate with
      | RetryAfterValue.num q => some q
      | RetryAfterValue.str parsed => parsed
    match numeric with
    | none => none
    | some q => if q < 0 then none else some ((jsRound (q * 1000) : ℤ) : ℚ)

/-- `TelegramClient.isRetryable`: a `TelegramDeliveryError` is retryable
when its resolved status code is 429, or in `[500, 600)`, or absent
(network-level failure); any other thrown value is not retryable. -/
def isRetryable (err : SendError) : Bool :=
  match err with
  | SendError.telegram e =>
    match resolveStatusCode e with
    | some code =>
      if code = 429 then true
      else decide (500 ≤ code) && decide (code < 600)
    | none => true
  | SendError.other => false

/-- `TelegramClient.resolveRetryDelay`: the wait before the next attempt —
the maximum of the current backoff `fallback` and the `retry_after` hint
when one is present, otherwise `max 0 fallback`. -/
def resolveRetryDelay (err : SendError) (fallback : ℚ) : ℚ :=
  match err with
  | SendError.telegram e =>
    match extractRetryAfter e with
    | some retryAfter => max fallback retryAfter
    | none => max 0 fallback
  | SendError.other => max 0 fallback

/-- The retry tunables destructured from `NormalizedOptions` at the top of
`executeWithRetry`. -/
structure RetryOptions where
  retryAttempts : ℕ
  retryInitialDelay : ℚ
  retryBackoffFactor : ℚ
  retryMaxDelay : ℚ
deriving DecidableEq, Repr

/-- Outcome of one call of the wrapped `operation`: `none` when it
resolves, `some err` when it throws `err`.  The `ℕ` argument of an
operation below is the number of calls made before this one. -/
abbrev Operation := ℕ → Option SendError

/-- The observable behaviour of one `executeWithRetry` run: how many times
`operation` was called, the backoff wait performed after each retryable
failure (in order; `waits.length = calls - 1` when all calls fail
retryably), the value of the `delay` variable on entry to each executed
loop iteration, and the error finally thrown (`none` when the promise
resolves). -/
structure RetryTrace where
  calls : ℕ
  waits : List ℚ
  delays : List ℚ
  thrown : Option SendError
deriving DecidableEq, Repr

/-- The loop body of `TelegramClient.executeWithRetry`, with `fuel`
bounding the remaining iterations (the loop condition
`attempt < retryAttempts` is preserved by keeping
`fuel = retryAttempts - attempt` at every call).  `att` is the `attempt`
counter and `delay` the current backoff base. -/
def retryLoop (opts : RetryOptions) (op : Operation) :
    ℕ → ℕ → ℚ → RetryTrace
  | 0, _, _ => { calls := 0, waits := [], delays := [], thrown := none }
  | fuel + 1, att, delay =>
    match op att with
    | none => { calls := 1, waits := [], delays := [delay], thrown := none }
    | some err =>
      if ¬ isRetryable err ∨ att + 1 ≥ opts.retryAttempts then
        { calls := 1, waits := [], delays := [delay], thrown := some err }
      else
        let waitTime := resolveRetryDelay err delay
        let multiplied := delay * opts.retryBackoffFactor
        let nextBase := max (max multiplied waitTime) opts.retryInitialDelay
        let nextDelay := min nextBase opts.retryMaxDelay
        let rest := retryLoop opts op fuel (att + 1) nextDelay
        { calls := rest.calls + 1
          waits := waitTime :: rest.waits
          delays := delay :: rest.delays
          thrown := rest.thrown }

/-- `TelegramClient.executeWithRetry`: run the loop from `attempt = 0`
with `delay = retryInitialDelay`. -/
def executeWithRetry (opts : RetryOptions) (op : Operation) : RetryTrace :=
  retryLoop opts op opts.retryAttempts 0 opts.retryInitialDelay

/-! ## Rate limiter (`src/rate-limiter.ts`, `RateLimiter`)

`RateLimiter` keeps `lastExecution : Map<string, number>` and its `wait`
reads the injected clock `now()`, sleeps `minDelay - elapsed` when the
elapsed time since the last recorded execution (default `0` for an unknown
key) is below `minDelay`, then records a fresh `now()` reading.

We embed one `wait` call as a pure step on the map.  Time is explicit:
`tCall` is the `now()` reading at entry; the `now()` reading after the
sleep is `tCall + sleep + slack`, where `sleep` is the requested sleep
duration and `slack ≥ 0` accounts for the event loop delivering the timer
no earlier than requested and for any scheduling delay (`setTimeout`
never fires early). -/

/-- The `lastExecution` map: last recorded send time per key
(`none` = key never recorded). -/
abbrev LimiterMap := String → Option ℚ

/-- The sleep duration requested by `RateLimiter.wait`:
`minDelay - elapsed` when `elapsed < minDelay`, else no sleep, where
`elapsed = tCall - (lastExecution.get(key) ?? 0)`. -/
def rlSleep (m : LimiterMap) (key : String) (minDelay tCall : ℚ) : ℚ :=
  let last := (m key).getD 0
  let elapsed := tCall - last
  if elapsed < minDelay then minDelay - elapsed else 0

/-- One `RateLimiter.wait(key, minDelay)` call starting at clock reading
`tCall`, with `slack` the extra time before the post-sleep `now()` reading:
returns the completion time (which is also the newly recorded
`lastExecution` entry) and the updated map. -/
def rlWait (m : LimiterMap) (key : String) (minDelay tCall slack : ℚ) :
    ℚ × LimiterMap :=
  let tDone := tCall + rlSleep m key minDelay tCall + slack
  (tDone, fun k => if k = key then some tDone else m k)

/-! ## Sequential task queue (`src/rate-limiter.ts`, `TaskQueue`)

`TaskQueue` keeps `tail : Promise<void>`; `push(task)` chains
`run = tail.then(() => task())` and replaces the tail by
`run.catch(() => {})`, returning `run` to the pusher.

We embed a settled promise denotationally as its settle time plus its
result, and a pushed task by its duration and its own outcome.
`p.then(f)` runs `f` only when `p` is fulfilled (a rejection propagates
without running `f`, settling at `p`'s settle time); `p.catch(h)` turns a
rejection into fulfilment. -/

/-- A settled `Promise<void>`: when it settles (in queue-relative time)
and its result (`none` = fulfilled, `some e` = rejected with `e`). -/
structure PromiseD where
  settleTime : ℚ
  result : Option SendError
deriving DecidableEq, Repr

/-- A task passed to `TaskQueue.push`: how long it runs once started and
its own outcome (`none` = resolves, `some e` = rejects with `e`). -/
structure QTask where
  dur : ℚ
  res : Option SendError
deriving DecidableEq, Repr

/-- `p.then(() => task())`: if `p` is fulfilled, the task starts at
`p.settleTime`, runs for `task.dur` and settles with the task's own
result; if `p` is rejected, the task never runs and the rejection
propagates unchanged. -/
def pthen (p : PromiseD) (task : QTask) : PromiseD :=
  match p.result with
  | none => { settleTime := p.settleTime + task.dur, result := task.res }
  | some e => { settleTime := p.settleTime, result := some e }

/-- `run.catch(() => {})`: same settle time, rejection swallowed. -/
def pcatch (p : PromiseD) : PromiseD :=
  { settleTime := p.settleTime, result := none }

/-- The `TaskQueue` state: its `tail` promise
(initially `Promise.resolve()`, i.e. fulfilled at time 0). -/
structure TaskQueue where
  tail : PromiseD
deriving DecidableEq, Repr

/-- The freshly constructed queue: `tail = Promise.resolve()`. -/
def TaskQueue.init : TaskQueue := ⟨{ settleTime := 0, result := none }⟩

/-- `TaskQueue.push`: chain the task onto the tail, keep the caught chain
as the new tail, and hand the uncaught `run` promise back to the pusher. -/
def TaskQueue.push (q : TaskQueue) (task : QTask) : PromiseD × TaskQueue :=
  let run := pthen q.tail task
  (run, ⟨pcatch run⟩)

/-- `TaskQueue.onIdle`: the caught tail — settles (fulfilled) once every
queued task has settled. -/
def TaskQueue.onIdle (q : TaskQueue) : PromiseD := pcatch q.tail

/-- Push a list of tasks in order, collecting the promise returned to each
pusher and the final queue state. -/
def TaskQueue.pushAll (q : TaskQueue) : List QTask → List PromiseD × TaskQueue
  | [] => ([], q)
  | task :: rest =>
    let (run, q1) := q.push task
    let (runs, q2) := q1.pushAll rest
    (run :: runs, q2)

/-! ## Formatter helpers (`src/formatter.ts`, `src/utils.ts`)

Strings are Lean `String`s; `String.length` agrees with JS `.length` on
the texts involved (the truncation notice is Cyrillic text, one UTF-16
code unit per character).  A log record is an association list from field
name to value; a value is its JSON rendering, with `none` standing for
`undefined` (JS treats an absent field and a field holding `undefined`
identically under `log[key] === undefined`, the only access the embedded
code performs). -/

/-- A JS string as a sequence of its code units (the texts involved use
one code unit per character). -/
abbrev JSString := List Char

/-- JS `s.slice(0, e)` for a possibly negative `e`: a negative end counts
from the end of the string (clamped at 0). -/
def jsSliceFromZero (s : JSString) (e : ℤ) : JSString :=
  s.take (if e < 0 then ((s.length : ℤ) + e).toNat else e.toNat)

/-- `utils.ts` `truncate(text, maxLength)`: unchanged when the text fits,
otherwise `text.slice(0, maxLength - 3) + '...'` with the truncation
flag set. -/
def truncate (text : JSString) (maxLength : ℤ) : JSString × Bool :=
  if (text.length : ℤ) ≤ maxLength then (text, false)
  else (jsSliceFromZero text (maxLength - 3) ++ "...".data, true)

/-- The fixed truncation notice appended by `ensureMaxLength`. -/
def truncationNotice : JSString :=
  "\n\n<b>Сообщение обрезано из-за ограничения Telegram</b>".data

/-- `formatter.ts` `ensureMaxLength` acting on the `text` field of the
formatter result (the `extra` and `method` fields pass through
unchanged): truncate; when truncation happened, append the notice and
truncate the combination again. -/
def ensureMaxLength (text : JSString) (maxLength : ℤ) : JSString :=
  let (trimmed, truncated) := truncate text maxLength
  if truncated = false then trimmed
  else (truncate (trimmed ++ truncationNotice) maxLength).1

/-- A log record: field names with values (`none` = `undefined`),
in object property order. -/
abbrev LogRecord := List (String × Option String)

/-- JS `log[key]`: `none` when the field is absent or holds `undefined`. -/
def jsGet (log : LogRecord) (key : String) : Option String :=
  (log.lookup key).bind id

/-- `RESERVED_FIELDS` of `formatter.ts`. -/
def RESERVED_FIELDS : List String := ["level", "time", "msg", "context", "err"]

/-- The allow-list-absent branch of `extractExtras`:
`Object.entries(log)` minus reserved fields and `undefined` values;
`undefined` when nothing remains. -/
def extrasAllEntries (log : LogRecord) : Option (List (String × String)) :=
  let entries := log.filterMap fun kv =>
    if RESERVED_FIELDS.contains kv.1 then none
    else kv.2.map fun v => (kv.1, v)
  if entries.length = 0 then none else some entries

/-- `formatter.ts` `extractExtras(log, options)`: `undefined` when extras
are disabled; with a configured `extraKeys` allow-list whose
non-reserved part is non-empty, pick exactly those keys that are defined
on the record (`undefined` when none is); otherwise every non-reserved
defined field. -/
def extractExtras (log : LogRecord) (includeExtras : Bool)
    (extraKeys : Option (List String)) : Option (List (String × String)) :=
  if includeExtras = false then none
  else
    let explicitKeys := extraKeys.map fun ks =>
      ks.filter fun k => !RESERVED_FIELDS.contains k
    match explicitKeys with
    | some ek =>
      if 0 < ek.length then
        let picked := ek.filterMap fun k => (jsGet log k).map fun v => (k, v)
        if picked.length = 0 then none else some picked
      else extrasAllEntries log
    | none => extrasAllEntries log

/-- `LEVEL_LABELS` of `formatter.ts`: the six standard pino levels. -/
def LEVEL_LABELS (n : ℤ) : Option String :=
  if n = 10 then some "TRACE"
  else if n = 20 then some "DEBUG"
  else if n = 30 then some "INFO"
  else if n = 40 then some "WARN"
  else if n = 50 then some "ERROR"
  else if n = 60 then some "FATAL"
  else none

/-- `formatter.ts` `resolveLevel(level)`: `'INFO'` when `!level` (absent
level — and also the number `0`, which is falsy in JS); otherwise the
label table entry, falling back to `` `LEVEL ${level}` ``. -/
def resolveLevel (level : Option ℤ) : String :=
  match level with
  | none => "INFO"
  | some n =>
    if n = 0 then "INFO"
    else (LEVEL_LABELS n).getD ("LEVEL " ++ toString n)

/-! ## Options normalizer (`src/utils.ts`)

`normalizeOptions` validates the raw transport options and fills
defaults; it throws configuration errors (`MISSING_BOT_TOKEN`,
`NO_CHAT_TARGET`) or plain errors for an invalid `minLevel`.  The raw
options arrive as a JS object; we embed the typed shape
(`TelegramTransportOptions`), so the initial
`typeof options !== 'object'` guard has no embedded counterpart.
Function-valued options (`formatMessage`, `onDeliveryError`, `send`) are
passed through unvalidated by the source and are not part of the data
model here. -/

/-- A chat identifier: `string | number`. -/
inductive ChatId where
  | num (n : ℤ)
  | str (s : String)
deriving DecidableEq, Repr

/-- A normalized delivery target (`TelegramChatTarget`). -/
structure TelegramChatTarget where
  chatId : ChatId
  threadId : Option ℤ
deriving DecidableEq, Repr

/-- One element of the raw `chatId` option: a bare number or string, an
object with optional `chatId`/`threadId` fields (`chatId` being `none`
models `undefined`/`null`), or a nullish entry (`undefined`/`null`). -/
inductive RawChatTarget where
  | num (n : ℤ)
  | str (s : String)
  | obj (chatId : Option ChatId) (threadId : Option ℤ)
  | nullish
deriving DecidableEq, Repr

/-- The raw `chatId` option: a single entry or an array of entries
(an absent `chatId` is `single nullish` — the code wraps it as
`[undefined]`). -/
inductive ChatSpec where
  | single (e : RawChatTarget)
  | list (es : List RawChatTarget)
deriving DecidableEq, Repr

/-- `utils.ts` `normalizeTarget(entry, defaultThread)`: scalars become
targets with the default thread; nullish and chat-id-less objects are
dropped; objects keep their own `threadId`, defaulting to
`defaultThread`. -/
def normalizeTarget (entry : RawChatTarget) (defaultThread : Option ℤ) :
    Option TelegramChatTarget :=
  match entry with
  | RawChatTarget.num n => some { chatId := ChatId.num n, threadId := defaultThread }
  | RawChatTarget.str s => some { chatId := ChatId.str s, threadId := defaultThread }
  | RawChatTarget.nullish => none
  | RawChatTarget.obj none _ => none
  | RawChatTarget.obj (some c) t =>
    some { chatId := c, threadId := t.orElse fun _ => defaultThread }

/-- `utils.ts` `normalizeTargets(options)`: wrap a scalar spec into a
one-element array, normalize each entry and drop the `null`s. -/
def normalizeTargets (spec : ChatSpec) (threadId : Option ℤ) :
    List TelegramChatTarget :=
  let raw := match spec with
    | ChatSpec.single e => [e]
    | ChatSpec.list es => es
  raw.filterMap fun entry => normalizeTarget entry threadId

/-- A JS number as read from the `minLevel` option: finite, `NaN`, or an
infinity. -/
inductive JNum where
  | finite (q : ℚ)
  | nan
  | inf (pos : Bool)
deriving DecidableEq, Repr

/-- `PINO_LEVEL_VALUES` of `utils.ts`. -/
def PINO_LEVEL_VALUES (s : String) : Option JNum :=
  if s = "trace" then some (JNum.finite 10)
  else if s = "debug" then some (JNum.finite 20)
  else if s = "info" then some (JNum.finite 30)
  else if s = "warn" then some (JNum.finite 40)
  else if s = "error" then some (JNum.finite 50)
  else if s = "fatal" then some (JNum.finite 60)
  else if s = "silent" then some (JNum.inf true)
  else none

/-- JS `Number(s)` on the lower-cased trimmed strings reaching the parse
in `resolveMinLevel`, modelled for optional-sign decimal integers
(`none` = `NaN`; the JS grammar's float/hex/exponent forms and the
case-sensitive `"Infinity"` literal do not occur in the claims). -/
def jsStringToInt (s : String) : Option ℤ :=
  match s.toNat? with
  | some n => some (n : ℤ)
  | none =>
    if s.startsWith "-" then
      match (s.drop 1).toNat? with
      | some n => some (-(n : ℤ))
      | none => none
    else none

/-- The configuration errors thrown by `normalizeOptions`:
`MISSING_BOT_TOKEN`, `NO_CHAT_TARGET`, and the plain errors thrown by
`resolveMinLevel` for an invalid logging level. -/
inductive ConfigError where
  | missingBotToken
  | noChatTarget
  | invalidMinLevel
deriving DecidableEq, Repr

/-- `utils.ts` `resolveMinLevel(level)`: absent/null maps to `0`; `NaN`
throws; infinities clamp; finite numbers clamp at `0`; strings are
trimmed/lower-cased, the empty string throws, known level names map
through `PINO_LEVEL_VALUES`, numeric strings clamp at `0`, anything else
throws. -/
def resolveMinLevel (level : Option (JNum ⊕ String)) : Except ConfigError JNum :=
  match level with
  | none => Except.ok (JNum.finite 0)
  | some (Sum.inl jn) =>
    match jn with
    | JNum.nan => Except.error ConfigError.invalidMinLevel
    | JNum.inf pos =>
      Except.ok (if pos then JNum.inf true else JNum.finite 0)
    | JNum.finite q => Except.ok (JNum.finite (max 0 q))
  | some (Sum.inr s) =>
    let normalized := s.trim.toLower
    if normalized = "" then Except.error ConfigError.invalidMinLevel
    else
      match PINO_LEVEL_VALUES normalized with
      | some v => Except.ok v
      | none =>
        match jsStringToInt normalized with
        | some parsed => Except.ok (JNum.finite (max 0 (parsed : ℚ)))
        | none => Except.error ConfigError.invalidMinLevel

/-- Heading overrides supplied by the user (`options.headings`). -/
structure HeadingsOverride where
  time : Option String
  context : Option String
  error : Option String
  extras : Option String
deriving DecidableEq, Repr

/-- The resolved heading labels. -/
structure Headings where
  time : String
  context : String
  error : String
  extras : String
deriving DecidableEq, Repr

/-- `DEFAULT_HEADINGS` of `utils.ts`. -/
def DEFAULT_HEADINGS : Headings :=
  { time := "Time", context := "Context", error := "Error", extras := "Extras" }

/-- Object-spread merge `{ ...DEFAULT_HEADINGS, ...(options.headings ?? {}) }`. -/
def mergeHeadings (o : Option HeadingsOverride) : Headings :=
  match o with
  | none => DEFAULT_HEADINGS
  | some h =>
    { time := h.time.getD DEFAULT_HEADINGS.time
      context := h.context.getD DEFAULT_HEADINGS.context
      error := h.error.getD DEFAULT_HEADINGS.error
      extras := h.extras.getD DEFAULT_HEADINGS.extras }

/-- The raw `TelegramTransportOptions` object (data fields; `none` =
option absent).  `contextKeys` is `string[] | string`. -/
structure TelegramTransportOptions where
  botToken : Option String
  chatId : ChatSpec
  threadId : Option ℤ
  parseMode : Option String
  disableNotification : Option Bool
  disableWebPagePreview : Option Bool
  includeContext : Option Bool
  contextKeys : Option (List String ⊕ String)
  includeExtras : Option Bool
  extraKeys : Option (List String)
  maxMessageLength : Option ℤ
  minDelayBetweenMessages : Option ℚ
  minLevel : Option (JNum ⊕ String)
  retryAttempts : Option ℚ
  retryInitialDelay : Option ℚ
  retryBackoffFactor : Option ℚ
  retryMaxDelay : Option ℚ
  headings : Option HeadingsOverride
deriving Repr

/-- The fully-resolved `NormalizedOptions` (data fields). -/
structure NormalizedOptions where
  botToken : String
  targets : List TelegramChatTarget
  parseMode : String
  disableNotification : Bool
  disableWebPagePreview : Bool
  includeContext : Bool
  contextKeys : List String
  includeExtras : Bool
  extraKeys : Option (List String)
  maxMessageLength : ℤ
  minDelayBetweenMessages : ℚ
  minLevel : JNum
  retryAttempts : ℤ
  retryInitialDelay : ℚ
  retryBackoffFactor : ℚ
  retryMaxDelay : ℚ
  headings : Headings
deriving Repr

/-- `utils.ts` `normalizeOptions(options)` (the version with
configuration-error codes): check `botToken` (absent, non-string or empty
is falsy → `MISSING_BOT_TOKEN`), normalize the targets and fail with
`NO_CHAT_TARGET` when none survive, resolve `minLevel`, clamp the retry
tunables, and assemble the normalized record with defaults. -/
def normalizeOptions (o : TelegramTransportOptions) :
    Except ConfigError NormalizedOptions :=
  match o.botToken with
  | none => Except.error ConfigError.missingBotToken
  | some tok =>
    if tok = "" then Except.error ConfigError.missingBotToken
    else
      let targets := normalizeTargets o.chatId o.threadId
      if targets.length = 0 then Except.error ConfigError.noChatTarget
      else
        let parseMode := o.parseMode.getD "HTML"
        let includeContext := o.includeContext.getD true
        let contextKeys : List String :=
          match o.contextKeys with
          | some (Sum.inl ks) => ks
          | some (Sum.inr k) => if k = "" then ["context", "ctx"] else [k]
          | none => ["context", "ctx"]
        match resolveMinLevel o.minLevel with
        | Except.error e => Except.error e
        | Except.ok minLevel =>
          let retryAttempts : ℤ := max 1 ⌊o.retryAttempts.getD 3⌋
          let retryInitialDelay : ℚ := max 0 (o.retryInitialDelay.getD 500)
          let retryBackoffFactor : ℚ := max 1 (o.retryBackoffFactor.getD 2)
          let retryMaxDelay : ℚ := max retryInitialDelay (o.retryMaxDelay.getD 10000)
          Except.ok
            { botToken := tok
              targets := targets
              parseMode := parseMode
              disableNotification := o.disableNotification.getD false
              disableWebPagePreview := o.disableWebPagePreview.getD true
              includeContext := includeContext
              contextKeys := contextKeys
              includeExtras := o.includeExtras.getD true
              extraKeys := o.extraKeys
              maxMessageLength := o.maxMessageLength.getD 4096
              minDelayBetweenMessages := o.minDelayBetweenMessages.getD 100
              minLevel := minLevel
              retryAttempts := retryAttempts
              retryInitialDelay := retryInitialDelay
              retryBackoffFactor := retryBackoffFactor
              retryMaxDelay := retryMaxDelay
              headings := mergeHeadings o.headings }

/-! ## Theorems -/

/-- Unfolding of one retried loop iteration: a retryable failure with
attempts remaining performs the wait and recurses on the updated delay. -/
lemma retryLoop_retry_step (opts : RetryOptions) (op : Operation) (f att : ℕ)
    (d : ℚ) (e : SendError) (hop : op att = some e)
    (hre : isRetryable e = true) (hlt : att + 1 < opts.retryAttempts) :
    retryLoop opts op (f + 1) att d =
      { calls := (retryLoop opts op f (att + 1)
            (min (max (max (d * opts.retryBackoffFactor) (resolveRetryDelay e d))
              opts.retryInitialDelay) opts.retryMaxDelay)).calls + 1
        waits := resolveRetryDelay e d :: (retryLoop opts op f (att + 1)
            (min (max (max (d * opts.retryBackoffFactor) (resolveRetryDelay e d))
              opts.retryInitialDelay) opts.retryMaxDelay)).waits
        delays := d :: (retryLoop opts op f (att + 1)
            (min (max (max (d * opts.retryBackoffFactor) (resolveRetryDelay e d))
              opts.retryInitialDelay) opts.retryMaxDelay)).delays
        thrown := (retryLoop opts op f (att + 1)
            (min (max (max (d * opts.retryBackoffFactor) (resolveRetryDelay e d))
              opts.retryInitialDelay) opts.retryMaxDelay)).thrown } := by
  have hcond : ¬ (¬ isRetryable e = true ∨ att + 1 ≥ opts.retryAttempts) := by
    simp only [hre, not_true_eq_false, false_or, ge_iff_le, not_le]
    omega
  simp only [retryLoop, hop]
  rw [if_neg hcond]

/-- Unfolding of a loop iteration that throws: a failure that is not
retryable, or that exhausts the attempt budget, surfaces the error. -/
lemma retryLoop_throw_step (opts : RetryOptions) (op : Operation) (f att : ℕ)
    (d : ℚ) (e : SendError) (hop : op att = some e)
    (hcond : ¬ isRetryable e = true ∨ att + 1 ≥ opts.retryAttempts) :
    retryLoop opts op (f + 1) att d =
      { calls := 1, waits := [], delays := [d], thrown := some e } := by
  simp only [retryLoop, hop]
  rw [if_pos hcond]

/-- When every attempt fails with a retryable error, the loop makes
exactly as many calls as it has fuel for and surfaces the error of the
last call. -/
lemma retryLoop_all_fail (opts : RetryOptions) (op : Operation)
    (hRetry : ∀ i e, op i = some e → isRetryable e = true) :
    ∀ fuel att d, 1 ≤ fuel → att + fuel = opts.retryAttempts →
      (∀ i, op i ≠ none) →
      (retryLoop opts op fuel att d).calls = fuel ∧
      (retryLoop opts op fuel att d).thrown = op (att + fuel - 1) := by
  intro fuel
  induction fuel with
  | zero => intro att d h1 _ _; omega
  | succ f ih =>
    intro att d _ hN hFail
    obtain ⟨e, hop⟩ := Option.ne_none_iff_exists'.mp (hFail att)
    have hre := hRetry att e hop
    by_cases hf : f = 0
    · subst hf
      rw [retryLoop_throw_step opts op 0 att d e hop (Or.inr (by omega))]
      have hatt : att + 1 - 1 = att := by omega
      exact ⟨rfl, by rw [hatt, hop]⟩
    · rw [retryLoop_retry_step opts op f att d e hop hre (by omega)]
      obtain ⟨ihc, iht⟩ := ih (att + 1)
        (min (max (max (d * opts.retryBackoffFactor) (resolveRetryDelay e d))
          opts.retryInitialDelay) opts.retryMaxDelay)
        (by omega) (by omega) hFail
      refine ⟨by simpa using ihc, ?_⟩
      have : att + 1 + f - 1 = att + (f + 1) - 1 := by omega
      rw [← this, ← iht]

/-- The backoff fallback is a lower bound for the performed wait. -/
lemma le_resolveRetryDelay (e : SendError) (d : ℚ) :
    d ≤ resolveRetryDelay e d := by
  cases e with
  | telegram te =>
    simp only [resolveRetryDelay]
    cases h : extractRetryAfter te
    · exact le_max_right _ _
    · exact le_max_left _ _
  | other => exact le_max_right _ _

/-- The extracted `retry_after` hint is a lower bound for the performed
wait. -/
lemma hint_le_resolveRetryDelay (te : TelegramErrorInfo) (d hint : ℚ)
    (h : extractRetryAfter te = some hint) :
    hint ≤ resolveRetryDelay (SendError.telegram te) d := by
  simp only [resolveRetryDelay, h]
  exact le_max_right _ _

/-- Invariant propagation for the exponential backoff: every wait the loop
performs at offset `i` from attempt index `att` is at least
`min (D * B ^ (att + i)) maxDelay`, and at least any `retry_after` hint of
the failure that triggered it, provided the delay on entry satisfies the
invariant `min (D * B ^ att) maxDelay ≤ d ≤ maxDelay`. -/
lemma retryLoop_waits_bound (opts : RetryOptions) (op : Operation)
    (hB : 1 ≤ opts.retryBackoffFactor)
    (hD0 : 0 ≤ opts.retryInitialDelay)
    (hDM : opts.retryInitialDelay ≤ opts.retryMaxDelay) :
    ∀ fuel att d,
      d ≤ opts.retryMaxDelay →
      min (opts.retryInitialDelay * opts.retryBackoffFactor ^ att)
        opts.retryMaxDelay ≤ d →
      ∀ i, i < (retryLoop opts op fuel att d).waits.length →
        (min (opts.retryInitialDelay * opts.retryBackoffFactor ^ (att + i))
            opts.retryMaxDelay
          ≤ (retryLoop opts op fuel att d).waits.getD i 0) ∧
        (∀ te hint, op (att + i) = some (SendError.telegram te) →
          extractRetryAfter te = some hint →
          hint ≤ (retryLoop opts op fuel att d).waits.getD i 0) := by
  intro fuel
  induction fuel with
  | zero =>
    intro att d _ _ i hi
    simp only [retryLoop, List.length_nil] at hi
    omega
  | succ f ih =>
    intro att d hdM hdge i hi
    cases hop : op att with
    | none =>
      rw [show retryLoop opts op (f + 1) att d =
          { calls := 1, waits := [], delays := [d], thrown := none } by
        simp only [retryLoop, hop]] at hi ⊢
      simp at hi
    | some e =>
      by_cases hcond : ¬ isRetryable e = true ∨ att + 1 ≥ opts.retryAttempts
      · rw [retryLoop_throw_step opts op f att d e hop hcond] at hi
        simp at hi
      · push_neg at hcond
        have hre : isRetryable e = true := hcond.1
        have hlt : att + 1 < opts.retryAttempts := by
          have := hcond.2; omega
        rw [retryLoop_retry_step opts op f att d e hop hre hlt] at hi ⊢
        set w := resolveRetryDelay e d with hw
        set nd := min (max (max (d * opts.retryBackoffFactor) w)
          opts.retryInitialDelay) opts.retryMaxDelay with hnd
        have hdw : d ≤ w := le_resolveRetryDelay e d
        have hnd_le : nd ≤ opts.retryMaxDelay := min_le_right _ _
        have hkey : min (opts.retryInitialDelay
              * opts.retryBackoffFactor ^ (att + 1)) opts.retryMaxDelay
            ≤ d * opts.retryBackoffFactor := by
          have h1 : min (opts.retryInitialDelay
                * opts.retryBackoffFactor ^ att) opts.retryMaxDelay
                * opts.retryBackoffFactor
              ≤ d * opts.retryBackoffFactor :=
            mul_le_mul_of_nonneg_right hdge (le_trans zero_le_one hB)
          rcases le_total (opts.retryInitialDelay
              * opts.retryBackoffFactor ^ att) opts.retryMaxDelay with hc | hc
          · rw [min_eq_left hc] at h1
            calc min (opts.retryInitialDelay
                  * opts.retryBackoffFactor ^ (att + 1)) opts.retryMaxDelay
                ≤ opts.retryInitialDelay
                  * opts.retryBackoffFactor ^ (att + 1) := min_le_left _ _
              _ = opts.retryInitialDelay * opts.retryBackoffFactor ^ att
                  * opts.retryBackoffFactor := by ring
              _ ≤ d * opts.retryBackoffFactor := h1
          · rw [min_eq_right hc] at h1
            calc min (opts.retryInitialDelay
                  * opts.retryBackoffFactor ^ (att + 1)) opts.retryMaxDelay
                ≤ opts.retryMaxDelay := min_le_right _ _
              _ ≤ opts.retryMaxDelay * opts.retryBackoffFactor :=
                le_mul_of_one_le_right (le_trans hD0 hDM) hB
              _ ≤ d * opts.retryBackoffFactor := h1
        have hnd_ge : min (opts.retryInitialDelay
              * opts.retryBackoffFactor ^ (att + 1)) opts.retryMaxDelay ≤ nd := by
          refine le_min ?_ (min_le_right _ _)
          calc min (opts.retryInitialDelay
                * opts.retryBackoffFactor ^ (att + 1)) opts.retryMaxDelay
              ≤ d * opts.retryBackoffFactor := hkey
            _ ≤ max (d * opts.retryBackoffFactor) w := le_max_left _ _
            _ ≤ max (max (d * opts.retryBackoffFactor) w)
                opts.retryInitialDelay := le_max_left _ _
        cases i with
        | zero =>
          constructor
          · simp only [Nat.add_zero, List.getD_cons_zero]
            exact le_trans hdge hdw
          · intro te hint hop' hx
            have hte : e = SendError.telegram te := by
              rw [show att + 0 = att by omega, hop] at hop'
              exact Option.some_injective _ hop'
            rw [hte] at hw
            simpa [hw] using hint_le_resolveRetryDelay te d hint hx
        | succ j =>
          simp only [List.length_cons, Nat.succ_lt_succ_iff] at hi
          obtain ⟨hb, hh⟩ := ih (att + 1) nd hnd_le hnd_ge j hi
          constructor
          · simpa [show att + (j + 1) = att + 1 + j by omega] using hb
          · intro te hint hop' hx
            have : op (att + 1 + j) = some (SendError.telegram te) := by
              rw [show att + 1 + j = att + (j + 1) by omega]; exact hop'
            simpa using hh te hint this hx

/-- The `delay` on entry to the first executed iteration is the delay the
loop was started with. -/
lemma retryLoop_delays_head (opts : RetryOptions) (op : Operation)
    (fuel att : ℕ) (d : ℚ) (h : 1 ≤ fuel) :
    (retryLoop opts op fuel att d).delays.getD 0 0 = d := by
  cases fuel with
  | zero => omega
  | succ f =>
    cases hop : op att with
    | none => simp [retryLoop, hop]
    | some e =>
      by_cases hcond : ¬ isRetryable e = true ∨ att + 1 ≥ opts.retryAttempts
      · rw [retryLoop_throw_step opts op f att d e hop hcond]; rfl
      · push_neg at hcond
        rw [retryLoop_retry_step opts op f att d e hop
          hcond.1 (by have := hcond.2; omega)]
        rfl

/-- The recorded delays follow the update rule of the loop body: each next
delay is `min (max (max (previous * B) wait) D) maxDelay`. -/
lemma retryLoop_delays_rel (opts : RetryOptions) (op : Operation) :
    ∀ fuel att d i,
      i + 1 < (retryLoop opts op fuel att d).delays.length →
      i < (retryLoop opts op fuel att d).waits.length ∧
      (retryLoop opts op fuel att d).delays.getD (i + 1) 0 =
        min (max (max ((retryLoop opts op fuel att d).delays.getD i 0
              * opts.retryBackoffFactor)
            ((retryLoop opts op fuel att d).waits.getD i 0))
          opts.retryInitialDelay) opts.retryMaxDelay := by
  intro fuel
  induction fuel with
  | zero =>
    intro att d i hi
    simp only [retryLoop, List.length_nil] at hi
    omega
  | succ f ih =>
    intro att d i hi
    cases hop : op att with
    | none =>
      rw [show retryLoop opts op (f + 1) att d =
          { calls := 1, waits := [], delays := [d], thrown := none } by
        simp only [retryLoop, hop]] at hi ⊢
      simp at hi
    | some e =>
      by_cases hcond : ¬ isRetryable e = true ∨ att + 1 ≥ opts.retryAttempts
      · rw [retryLoop_throw_step opts op f att d e hop hcond] at hi ⊢
        simp at hi
      · push_neg at hcond
        have hre : isRetryable e = true := hcond.1
        have hlt : att + 1 < opts.retryAttempts := by have := hcond.2; omega
        rw [retryLoop_retry_step opts op f att d e hop hre hlt] at hi ⊢
        set nd := min (max (max (d * opts.retryBackoffFactor)
          (resolveRetryDelay e d)) opts.retryInitialDelay)
          opts.retryMaxDelay with hnd
        cases i with
        | zero =>
          refine ⟨by simp, ?_⟩
          simp only [List.length_cons, Nat.succ_lt_succ_iff] at hi
          have hfuel : 1 ≤ f := by
            by_contra hf
            have : f = 0 := by omega
            subst this
            simp [retryLoop] at hi
          simp only [List.getD_cons_succ, List.getD_cons_zero]
          exact retryLoop_delays_head opts op f (att + 1) nd hfuel
        | succ j =>
          simp only [List.length_cons, Nat.succ_lt_succ_iff] at hi
          obtain ⟨hw, hrel⟩ := ih (att + 1) nd j hi
          refine ⟨by simpa using hw, ?_⟩
          simpa using hrel

/-- C1: with every attempt failing with a retryable error, the retry loop
makes exactly `retryAttempts` calls to the operation (the counter includes
the first try) and surfaces the error of the last call as the single final
error. -/
theorem claim_C1 (opts : RetryOptions) (op : Operation)
    (hAtt : 1 ≤ opts.retryAttempts)
    (hFail : ∀ i, op i ≠ none)
    (hRetry : ∀ i e, op i = some e → isRetryable e = true) :
    (executeWithRetry opts op).calls = opts.retryAttempts ∧
    (executeWithRetry opts op).thrown = op (opts.retryAttempts - 1) ∧
    (executeWithRetry opts op).thrown ≠ none := by
  obtain ⟨hc, ht⟩ := retryLoop_all_fail opts op hRetry opts.retryAttempts 0
    opts.retryInitialDelay hAtt (by omega) hFail
  refine ⟨hc, by simpa [executeWithRetry] using ht, ?_⟩
  rw [executeWithRetry, ht]
  exact hFail _

/-- C1 witness: three configured attempts against a permanently failing
500-status error — exactly three calls and the final error surfaced. -/
theorem claim_C1_witness :
    (executeWithRetry
        { retryAttempts := 3, retryInitialDelay := 500,
          retryBackoffFactor := 2, retryMaxDelay := 10000 }
        (fun _ => some (SendError.telegram
          { status := some 500, errorCode := none, retryAfter := none }))).calls = 3 ∧
    (executeWithRetry
        { retryAttempts := 3, retryInitialDelay := 500,
          retryBackoffFactor := 2, retryMaxDelay := 10000 }
        (fun _ => some (SendError.telegram
          { status := some 500, errorCode := none, retryAfter := none }))).thrown
      = some (SendError.telegram
          { status := some 500, errorCode := none, retryAfter := none }) := by
  have h := claim_C1
    { retryAttempts := 3, retryInitialDelay := 500,
      retryBackoffFactor := 2, retryMaxDelay := 10000 }
    (fun _ => some (SendError.telegram
      { status := some 500, errorCode := none, retryAfter := none }))
    (by decide) (fun i => by simp)
    (fun i e h => by
      simp only at h
      cases h
      decide)
  exact ⟨h.1, h.2.1⟩

/-- C3: under the normalizer's invariants (`B ≥ 1`, `0 ≤ D ≤ maxDelay`),
every wait the retry loop performs before attempt `k = i + 2` is at least
`min (D * B ^ i) maxDelay`, at least the `retry_after` hint of the failure
of attempt `k - 1` when one was present, and the delay entering the next
iteration is the greatest of (previous delay × B), the wait just
performed, and `D`, capped at `maxDelay`. -/
theorem claim_C3 (opts : RetryOptions) (op : Operation)
    (hB : 1 ≤ opts.retryBackoffFactor)
    (hD0 : 0 ≤ opts.retryInitialDelay)
    (hDM : opts.retryInitialDelay ≤ opts.retryMaxDelay) :
    (∀ i, i < (executeWithRetry opts op).waits.length →
      min (opts.retryInitialDelay * opts.retryBackoffFactor ^ i)
          opts.retryMaxDelay
        ≤ (executeWithRetry opts op).waits.getD i 0) ∧
    (∀ i te hint, i < (executeWithRetry opts op).waits.length →
      op i = some (SendError.telegram te) →
      extractRetryAfter te = some hint →
      hint ≤ (executeWithRetry opts op).waits.getD i 0) ∧
    (∀ i, i + 1 < (executeWithRetry opts op).delays.length →
      (executeWithRetry opts op).delays.getD (i + 1) 0 =
        min (max (max ((executeWithRetry opts op).delays.getD i 0
              * opts.retryBackoffFactor)
            ((executeWithRetry opts op).waits.getD i 0))
          opts.retryInitialDelay) opts.retryMaxDelay) := by
  have hstart : min (opts.retryInitialDelay * opts.retryBackoffFactor ^ 0)
      opts.retryMaxDelay ≤ opts.retryInitialDelay := by
    simp
  refine ⟨?_, ?_, ?_⟩
  · intro i hi
    have := (retryLoop_waits_bound opts op hB hD0 hDM opts.retryAttempts 0
      opts.retryInitialDelay hDM hstart i (by simpa [executeWithRetry] using hi)).1
    simpa [executeWithRetry] using this
  · intro i te hint hi hop hx
    have := (retryLoop_waits_bound opts op hB hD0 hDM opts.retryAttempts 0
      opts.retryInitialDelay hDM hstart i
      (by simpa [executeWithRetry] using hi)).2 te hint (by simpa using hop) hx
    simpa [executeWithRetry] using this
  · intro i hi
    exact (retryLoop_delays_rel opts op opts.retryAttempts 0
      opts.retryInitialDelay i (by simpa [executeWithRetry] using hi)).2

/-- C3 witness: with `D = 500`, `B = 2`, `maxDelay = 10000`, three attempts
and a permanently failing 500-status error carrying `retry_after = 1`
(1000 ms hint): the first wait is at least `min (500 * 2^0) 10000` and at
least the 1000 ms hint, and the second recorded delay follows the update
rule. -/
theorem claim_C3_witness :
    0 < (executeWithRetry
        { retryAttempts := 3, retryInitialDelay := 500,
          retryBackoffFactor := 2, retryMaxDelay := 10000 }
        (fun _ => some (SendError.telegram
          { status := some 500, errorCode := none,
            retryAfter := some (RetryAfterValue.num 1) }))).waits.length ∧
    min ((500 : ℚ) * 2 ^ 0) 10000
      ≤ (executeWithRetry
        { retryAttempts := 3, retryInitialDelay := 500,
          retryBackoffFactor := 2, retryMaxDelay := 10000 }
        (fun _ => some (SendError.telegram
          { status := some 500, errorCode := none,
            retryAfter := some (RetryAfterValue.num 1) }))).waits.getD 0 0 ∧
    (1000 : ℚ)
      ≤ (executeWithRetry
        { retryAttempts := 3, retryInitialDelay := 500,
          retryBackoffFactor := 2, retryMaxDelay := 10000 }
        (fun _ => some (SendError.telegram
          { status := some 500, errorCode := none,
            retryAfter := some (RetryAfterValue.num 1) }))).waits.getD 0 0 ∧
    (executeWithRetry
        { retryAttempts := 3, retryInitialDelay := 500,
          retryBackoffFactor := 2, retryMaxDelay := 10000 }
        (fun _ => some (SendError.telegram
          { status := some 500, errorCode := none,
            retryAfter := some (RetryAfterValue.num 1) }))).delays.getD 1 0 =
      min (max (max ((executeWithRetry
          { retryAttempts := 3, retryInitialDelay := 500,
            retryBackoffFactor := 2, retryMaxDelay := 10000 }
          (fun _ => some (SendError.telegram
            { status := some 500, errorCode := none,
              retryAfter := some (RetryAfterValue.num 1) }))).delays.getD 0 0 * 2)
          ((executeWithRetry
          { retryAttempts := 3, retryInitialDelay := 500,
            retryBackoffFactor := 2, retryMaxDelay := 10000 }
          (fun _ => some (SendError.telegram
            { status := some 500, errorCode := none,
              retryAfter := some (RetryAfterValue.num 1) }))).waits.getD 0 0)) 500)
        10000 := by
  have h := claim_C3
    { retryAttempts := 3, retryInitialDelay := 500,
      retryBackoffFactor := 2, retryMaxDelay := 10000 }
    (fun _ => some (SendError.telegram
      { status := some 500, errorCode := none,
        retryAfter := some (RetryAfterValue.num 1) }))
    (by norm_num) (by norm_num) (by norm_num)
  have hlen : 0 < (executeWithRetry
      { retryAttempts := 3, retryInitialDelay := 500,
        retryBackoffFactor := 2, retryMaxDelay := 10000 }
      (fun _ => some (SendError.telegram
        { status := some 500, errorCode := none,
          retryAfter := some (RetryAfterValue.num 1) }))).waits.length := by
    decide
  have hdlen : 0 + 1 < (executeWithRetry
      { retryAttempts := 3, retryInitialDelay := 500,
        retryBackoffFactor := 2, retryMaxDelay := 10000 }
      (fun _ => some (SendError.telegram
        { status := some 500, errorCode := none,
          retryAfter := some (RetryAfterValue.num 1) }))).delays.length := by
    decide
  refine ⟨hlen, h.1 0 hlen, ?_, ?_⟩
  · have hx : extractRetryAfter
        { status := some 500, errorCode := none,
          retryAfter := some (RetryAfterValue.num 1) } = some 1000 := by
      norm_num [extractRetryAfter, jsRound]
    exact h.2.1 0 _ 1000 hlen rfl hx
  · exact h.2.2 0 hdlen

/-- C9: the default formatter's level resolution maps 10/20/30/40/50/60 to
TRACE/DEBUG/INFO/WARN/ERROR/FATAL, an absent level defaults to INFO — but
the claim's "every other numeric level `n` renders `LEVEL n`" fails at
`n = 0`: `!level` is true for the number `0` in JS, so level `0` renders
`INFO`.  This theorem is the amended claim: the `LEVEL n` fallback holds
for every unknown nonzero level, and `0` joins the absent case. -/
theorem claim_C9 (n : ℤ) (h0 : n ≠ 0)
    (hn : n ∉ ([10, 20, 30, 40, 50, 60] : List ℤ)) :
    resolveLevel none = "INFO" ∧
    resolveLevel (some 0) = "INFO" ∧
    resolveLevel (some 10) = "TRACE" ∧ resolveLevel (some 20) = "DEBUG" ∧
    resolveLevel (some 30) = "INFO" ∧ resolveLevel (some 40) = "WARN" ∧
    resolveLevel (some 50) = "ERROR" ∧ resolveLevel (some 60) = "FATAL" ∧
    resolveLevel (some n) = "LEVEL " ++ toString n := by
  simp only [List.mem_cons, List.not_mem_nil, or_false, not_or] at hn
  obtain ⟨h10, h20, h30, h40, h50, h60⟩ := hn
  refine ⟨by decide, by decide, by decide, by decide, by decide, by decide,
    by decide, by decide, ?_⟩
  simp [resolveLevel, LEVEL_LABELS, h0, h10, h20, h30, h40, h50, h60]

/-- C9 witness: the amended claim applied at the unknown level 25. -/
theorem claim_C9_witness :
    (25 : ℤ) ≠ 0 ∧ resolveLevel (some 25) = "LEVEL " ++ toString (25 : ℤ) :=
  ⟨by decide, (claim_C9 25 (by decide) (by decide)).2.2.2.2.2.2.2.2⟩

/-- C9 counterexample: the claim as stated says level `0` (a numeric level
outside the label table) renders `"LEVEL 0"`; the code renders `"INFO"`
because `0` is falsy. -/
theorem claim_C9_counterexample :
    resolveLevel (some 0) = "INFO" ∧ resolveLevel (some 0) ≠ "LEVEL 0" := by
  decide

/-- C10: a `parameters.retry_after` that is a non-negative number (or a
string parsing to one) makes the retry loop's wait hint
`Math.round(value * 1000)` milliseconds, and the retry delay becomes the
maximum of the backoff fallback and that hint; a negative or non-numeric
value is ignored, leaving only the backoff delay (`max 0 fallback`). -/
theorem claim_C10 (e : TelegramErrorInfo) (fallback q : ℚ) :
    (e.retryAfter = some (RetryAfterValue.num q) ∨
        e.retryAfter = some (RetryAfterValue.str (some q)) →
      (0 ≤ q →
        extractRetryAfter e = some ((jsRound (q * 1000) : ℤ) : ℚ) ∧
        resolveRetryDelay (SendError.telegram e) fallback
          = max fallback ((jsRound (q * 1000) : ℤ) : ℚ)) ∧
      (q < 0 →
        extractRetryAfter e = none ∧
        resolveRetryDelay (SendError.telegram e) fallback = max 0 fallback)) ∧
    (e.retryAfter = some (RetryAfterValue.str none) →
      extractRetryAfter e = none ∧
      resolveRetryDelay (SendError.telegram e) fallback = max 0 fallback) := by
  constructor
  · intro hra
    constructor
    · intro hq
      have hx : extractRetryAfter e = some ((jsRound (q * 1000) : ℤ) : ℚ) := by
        rcases hra with h | h <;>
          simp [extractRetryAfter, h, not_lt.mpr hq]
      exact ⟨hx, by simp [resolveRetryDelay, hx]⟩
    · intro hq
      have hx : extractRetryAfter e = none := by
        rcases hra with h | h <;> simp [extractRetryAfter, h, hq]
      exact ⟨hx, by simp [resolveRetryDelay, hx]⟩
  · intro hra
    have hx : extractRetryAfter e = none := by simp [extractRetryAfter, hra]
    exact ⟨hx, by simp [resolveRetryDelay, hx]⟩

/-- C10 witness: `retry_after = 2` (seconds) with fallback 500 ms gives the
hint `round(2 * 1000) = 2000` ms and a retry delay of
`max 500 2000 = 2000` ms. -/
theorem claim_C10_witness :
    extractRetryAfter
        { status := none, errorCode := none,
          retryAfter := some (RetryAfterValue.num 2) } = some 2000 ∧
    resolveRetryDelay
        (SendError.telegram
          { status := none, errorCode := none,
            retryAfter := some (RetryAfterValue.num 2) }) 500 = 2000 := by
  have h := (claim_C10
    { status := none, errorCode := none,
      retryAfter := some (RetryAfterValue.num 2) } 500 2).1
    (Or.inl rfl) |>.1 (by norm_num)
  have hr : ((jsRound ((2 : ℚ) * 1000) : ℤ) : ℚ) = 2000 := by
    norm_num [jsRound]
  rw [hr] at h
  refine ⟨h.1, h.2.trans ?_⟩
  norm_num

/-- C2: a failed send attempt is retried iff the delivery error's resolved
status code is 429 (rate limit), in `[500, 600)` (server-side), or absent
(network-level failure); every other failure — a different resolved code,
or a thrown value that is not a delivery error — is fatal: with any
configured attempt count `≥ 1`, a fatal first failure produces exactly one
call and surfaces that single error. -/
theorem claim_C2 (err : SendError) (opts : RetryOptions) (op : Operation)
    (hAtt : 1 ≤ opts.retryAttempts) (hOp : op 0 = some err)
    (hFatal : isRetryable err = false) :
    (∀ e : TelegramErrorInfo,
      isRetryable (SendError.telegram e) = true ↔
        (resolveStatusCode e = some 429 ∨
         (∃ c, resolveStatusCode e = some c ∧ 500 ≤ c ∧ c < 600) ∨
         resolveStatusCode e = none)) ∧
    isRetryable SendError.other = false ∧
    (executeWithRetry opts op).calls = 1 ∧
    (executeWithRetry opts op).waits = [] ∧
    (executeWithRetry opts op).thrown = some err := by
  have hiff : ∀ e : TelegramErrorInfo,
      isRetryable (SendError.telegram e) = true ↔
        (resolveStatusCode e = some 429 ∨
         (∃ c, resolveStatusCode e = some c ∧ 500 ≤ c ∧ c < 600) ∨
         resolveStatusCode e = none) := by
    intro e
    cases hc : resolveStatusCode e with
    | none => simp [isRetryable, hc]
    | some c =>
      by_cases h429 : c = 429
      · simp [isRetryable, hc, h429]
      · simp only [isRetryable, hc, if_neg h429]
        constructor
        · intro h
          simp only [Bool.and_eq_true, decide_eq_true_eq] at h
          exact Or.inr (Or.inl ⟨c, rfl, h.1, h.2⟩)
        · rintro (h | ⟨c', hc', h5, h6⟩ | h)
          · exact absurd (Option.some_injective _ h) h429
          · obtain rfl : c' = c := (Option.some_injective _ hc'.symm)
            simp [h5, h6]
          · exact absurd h (by simp)
  refine ⟨hiff, rfl, ?_⟩
  obtain ⟨N, D, B, M⟩ := opts
  dsimp only at hAtt ⊢
  obtain ⟨m, rfl⟩ : ∃ m, N = m + 1 := ⟨N - 1, by omega⟩
  simp [executeWithRetry, retryLoop, hOp, hFatal]

/-- C2 witness: a 400 bad-request error with three configured attempts —
one call, no waits, the error surfaced. -/
theorem claim_C2_witness :
    isRetryable (SendError.telegram
      { status := some 400, errorCode := none, retryAfter := none }) = false ∧
    (executeWithRetry
        { retryAttempts := 3, retryInitialDelay := 500,
          retryBackoffFactor := 2, retryMaxDelay := 10000 }
        (fun _ => some (SendError.telegram
          { status := some 400, errorCode := none, retryAfter := none }))).calls = 1 ∧
    (executeWithRetry
        { retryAttempts := 3, retryInitialDelay := 500,
          retryBackoffFactor := 2, retryMaxDelay := 10000 }
        (fun _ => some (SendError.telegram
          { status := some 400, errorCode := none, retryAfter := none }))).thrown
      = some (SendError.telegram
          { status := some 400, errorCode := none, retryAfter := none }) := by
  have h := claim_C2
    (SendError.telegram { status := some 400, errorCode := none, retryAfter := none })
    { retryAttempts := 3, retryInitialDelay := 500,
      retryBackoffFactor := 2, retryMaxDelay := 10000 }
    (fun _ => some (SendError.telegram
      { status := some 400, errorCode := none, retryAfter := none }))
    (by decide) rfl (by decide)
  exact ⟨by decide, h.2.2.1, h.2.2.2.2⟩

/-- Transport options containing only a credential and a destination
specification, every other option left absent (defaulted). -/
def baseOptions (tok : Option String) (spec : ChatSpec) :
    TelegramTransportOptions :=
  { botToken := tok, chatId := spec, threadId := none, parseMode := none,
    disableNotification := none, disableWebPagePreview := none,
    includeContext := none, contextKeys := none, includeExtras := none,
    extraKeys := none, maxMessageLength := none,
    minDelayBetweenMessages := none, minLevel := none, retryAttempts := none,
    retryInitialDelay := none, retryBackoffFactor := none,
    retryMaxDelay := none, headings := none }

/-- C4: with a non-empty credential and a destination specification
normalizing to at least one target, `normalizeOptions` succeeds and keeps
exactly those targets; a specification normalizing to zero targets fails
with the `NO_CHAT_TARGET` configuration error, and an absent or empty
credential fails with `MISSING_BOT_TOKEN`. -/
theorem claim_C4 (tok : String) (spec spec0 : ChatSpec) (htok : tok ≠ "")
    (hne : normalizeTargets spec none ≠ [])
    (hz : normalizeTargets spec0 none = []) :
    (∃ n, normalizeOptions (baseOptions (some tok) spec) = Except.ok n ∧
      n.targets = normalizeTargets spec none) ∧
    normalizeOptions (baseOptions (some tok) spec0)
      = Except.error ConfigError.noChatTarget ∧
    (∀ s : ChatSpec, normalizeOptions (baseOptions none s)
      = Except.error ConfigError.missingBotToken) ∧
    (∀ s : ChatSpec, normalizeOptions (baseOptions (some "") s)
      = Except.error ConfigError.missingBotToken) := by
  refine ⟨?_, ?_, fun s => rfl, fun s => by simp [normalizeOptions, baseOptions]⟩
  · have hlen : ¬ (normalizeTargets spec none).length = 0 := by
      simpa [List.length_eq_zero] using hne
    simp only [normalizeOptions, baseOptions, resolveMinLevel]
    rw [if_neg htok, if_neg hlen]
    exact ⟨_, rfl, rfl⟩
  · simp only [normalizeOptions, baseOptions]
    rw [if_neg htok, if_pos (by simp [hz])]

/-- C4 witness: `botToken = "t"` with a single string chat id succeeds;
the same token with a nullish chat id fails with `NO_CHAT_TARGET`. -/
theorem claim_C4_witness :
    (∃ n, normalizeOptions (baseOptions (some "t")
        (ChatSpec.single (RawChatTarget.str "chat"))) = Except.ok n ∧
      n.targets = normalizeTargets
        (ChatSpec.single (RawChatTarget.str "chat")) none) ∧
    normalizeOptions (baseOptions (some "t")
        (ChatSpec.single RawChatTarget.nullish))
      = Except.error ConfigError.noChatTarget ∧
    normalizeOptions (baseOptions none
        (ChatSpec.single (RawChatTarget.str "chat")))
      = Except.error ConfigError.missingBotToken := by
  have h := claim_C4 "t" (ChatSpec.single (RawChatTarget.str "chat"))
    (ChatSpec.single RawChatTarget.nullish)
    (by decide) (by decide) (by decide)
  exact ⟨h.1, h.2.1, h.2.2.1 _⟩

/-- C5 (amended): consecutive completions of `RateLimiter.wait` for the
same key are at least `minDelay` apart on the limiter's clock; the update
touches no other key and the wait depends only on the key's own entry;
and a first call for a never-recorded key performs no sleep provided the
clock reading is at least `minDelay` (true for the default epoch clock —
see the counterexample for an injected small clock). -/
theorem claim_C5 (key : String) (minDelay tCall slack : ℚ)
    (hslack : 0 ≤ slack) :
    (∀ (m : LimiterMap) (t1 : ℚ), m key = some t1 →
      t1 + minDelay ≤ (rlWait m key minDelay tCall slack).1) ∧
    (∀ (m : LimiterMap) (k2 : String), k2 ≠ key →
      (rlWait m key minDelay tCall slack).2 k2 = m k2) ∧
    (∀ m m2 : LimiterMap, m key = m2 key →
      (rlWait m key minDelay tCall slack).1
        = (rlWait m2 key minDelay tCall slack).1) ∧
    (∀ m : LimiterMap, m key = none → minDelay ≤ tCall →
      rlSleep m key minDelay tCall = 0 ∧
      (rlWait m key minDelay tCall slack).1 = tCall + slack) := by
  refine ⟨?_, ?_, ?_, ?_⟩
  · intro m t1 hm
    simp only [rlWait, rlSleep, hm, Option.getD_some]
    split_ifs with h
    · linarith
    · push_neg at h
      linarith
  · intro m k2 hk
    simp [rlWait, hk]
  · intro m m2 hm
    simp only [rlWait, rlSleep, hm]
  · intro m hm hle
    have hs : rlSleep m key minDelay tCall = 0 := by
      simp only [rlSleep, hm, Option.getD_none]
      rw [if_neg (by push_neg; linarith)]
    exact ⟨hs, by simp only [rlWait, hs]; ring⟩

/-- C5 witness: a key last recorded at 950 and re-requested at 1000 with
`minDelay = 100` completes no earlier than 1050; other keys are
untouched; and a fresh key at clock 1000 sleeps 0. -/
theorem claim_C5_witness :
    ((1050 : ℚ) ≤ (rlWait (fun k => if k = "chat" then some 950 else none)
        "chat" 100 1000 0).1) ∧
    ((rlWait (fun k => if k = "chat" then some 950 else none)
        "chat" 100 1000 0).2 "other" = none) ∧
    rlSleep (fun _ => none) "chat" 100 1000 = 0 := by
  have h := claim_C5 "chat" 100 1000 0 (by norm_num)
  refine ⟨?_, ?_, (h.2.2.2 (fun _ => none) rfl (by norm_num)).1⟩
  · have := h.1 (fun k => if k = "chat" then some 950 else none) 950 (by simp)
    linarith
  · have := h.2.1 (fun k => if k = "chat" then some 950 else none) "other"
      (by decide)
    simpa using this

/-- C5 counterexample: the claim's "the first call for a key never
recorded before completes without waiting" fails on the code: an unknown
key defaults its last-execution time to `0`, so with an injected clock
reading `0` and `minDelay = 100` the first call sleeps the full 100 and
completes at 100, not at 0. -/
theorem claim_C5_counterexample :
    rlSleep (fun _ => none) "chat" 100 0 = 100 ∧
    (rlWait (fun _ => none) "chat" 100 0 0).1 = 100 := by
  constructor
  · norm_num [rlSleep]
  · norm_num [rlWait, rlSleep]

/-- `pushAll` hands one promise back per pushed task. -/
lemma pushAll_length (q : TaskQueue) (tasks : List QTask) :
    (q.pushAll tasks).1.length = tasks.length := by
  induction tasks generalizing q with
  | nil => rfl
  | cons t ts ih => simp [TaskQueue.pushAll, TaskQueue.push, ih]

/-- With a fulfilled tail, the queue's tail stays fulfilled after any
sequence of pushes and its settle time accumulates every task's duration
— regardless of task failures. -/
lemma pushAll_tail (q : TaskQueue) (tasks : List QTask)
    (hq : q.tail.result = none) :
    (q.pushAll tasks).2.tail.result = none ∧
    (q.pushAll tasks).2.tail.settleTime
      = q.tail.settleTime + (tasks.map QTask.dur).sum := by
  induction tasks generalizing q with
  | nil => refine ⟨?_, ?_⟩ <;> simp [TaskQueue.pushAll, hq]
  | cons t ts ih =>
    have hrun : pthen q.tail t =
        { settleTime := q.tail.settleTime + t.dur, result := t.res } := by
      simp [pthen, hq]
    obtain ⟨h1, h2⟩ := ih ⟨pcatch (pthen q.tail t)⟩ rfl
    refine ⟨by simpa [TaskQueue.pushAll, TaskQueue.push] using h1, ?_⟩
    simp only [TaskQueue.pushAll, TaskQueue.push] at h2 ⊢
    rw [h2, hrun]
    simp [pcatch]
    ring

/-- Each pusher's returned promise carries that task's own outcome. -/
lemma pushAll_results (q : TaskQueue) (tasks : List QTask)
    (hq : q.tail.result = none) :
    ∀ i, i < tasks.length →
      ((q.pushAll tasks).1.getD i { settleTime := 0, result := none }).result
        = (tasks.getD i { dur := 0, res := none }).res := by
  induction tasks generalizing q with
  | nil => intro i hi; simp at hi
  | cons t ts ih =>
    intro i hi
    have hrun : pthen q.tail t =
        { settleTime := q.tail.settleTime + t.dur, result := t.res } := by
      simp [pthen, hq]
    cases i with
    | zero =>
      simp [TaskQueue.pushAll, TaskQueue.push, hrun]
    | succ j =>
      simp only [TaskQueue.pushAll, TaskQueue.push, List.getD_cons_succ]
      exact ih ⟨pcatch (pthen q.tail t)⟩ rfl j (by simpa using hi)

/-- Settle times of the returned promises: the first task settles its
duration after the initial tail, and each later task settles its duration
after its predecessor's settlement — tasks run strictly sequentially. -/
lemma pushAll_settle (q : TaskQueue) (tasks : List QTask)
    (hq : q.tail.result = none) :
    (0 < tasks.length →
      ((q.pushAll tasks).1.getD 0 { settleTime := 0, result := none }).settleTime
        = q.tail.settleTime + (tasks.getD 0 { dur := 0, res := none }).dur) ∧
    (∀ i, i + 1 < tasks.length →
      ((q.pushAll tasks).1.getD (i + 1)
          { settleTime := 0, result := none }).settleTime
        = ((q.pushAll tasks).1.getD i
            { settleTime := 0, result := none }).settleTime
          + (tasks.getD (i + 1) { dur := 0, res := none }).dur) := by
  induction tasks generalizing q with
  | nil => exact ⟨by intro h; simp at h, by intro i hi; simp at hi⟩
  | cons t ts ih =>
    have hrun : pthen q.tail t =
        { settleTime := q.tail.settleTime + t.dur, result := t.res } := by
      simp [pthen, hq]
    obtain ⟨ih0, ihs⟩ := ih ⟨pcatch (pthen q.tail t)⟩ rfl
    constructor
    · intro _
      simp [TaskQueue.pushAll, TaskQueue.push, hrun]
    · intro i hi
      cases i with
      | zero =>
        simp only [TaskQueue.pushAll, TaskQueue.push, List.getD_cons_succ,
          List.getD_cons_zero]
        have h0 := ih0 (by simpa using hi)
        rw [h0, hrun]
        simp [pcatch]
      | succ j =>
        simp only [TaskQueue.pushAll, TaskQueue.push, List.getD_cons_succ]
        exact ihs j (by simpa using hi)

/-- C6: tasks pushed onto the queue settle strictly in push order — each
task settles exactly its own duration after its predecessor settles (and
the first after the initial tail), so executions never overlap; a task's
failure neither blocks nor shifts any later task; each returned promise
settles with its own task's outcome; and after any pushes the queue's
tail is fulfilled again, so `onIdle` resolves successfully once all
durations have elapsed. -/
theorem claim_C6 (q : TaskQueue) (tasks : List QTask)
    (hq : q.tail.result = none) :
    ((q.pushAll tasks).1.length = tasks.length) ∧
    (∀ i, i < tasks.length →
      ((q.pushAll tasks).1.getD i { settleTime := 0, result := none }).result
        = (tasks.getD i { dur := 0, res := none }).res) ∧
    (0 < tasks.length →
      ((q.pushAll tasks).1.getD 0 { settleTime := 0, result := none }).settleTime
        = q.tail.settleTime + (tasks.getD 0 { dur := 0, res := none }).dur) ∧
    (∀ i, i + 1 < tasks.length →
      ((q.pushAll tasks).1.getD (i + 1)
          { settleTime := 0, result := none }).settleTime
        = ((q.pushAll tasks).1.getD i
            { settleTime := 0, result := none }).settleTime
          + (tasks.getD (i + 1) { dur := 0, res := none }).dur) ∧
    ((q.pushAll tasks).2.onIdle.result = none) ∧
    ((q.pushAll tasks).2.onIdle.settleTime
      = q.tail.settleTime + (tasks.map QTask.dur).sum) := by
  obtain ⟨ht1, ht2⟩ := pushAll_tail q tasks hq
  obtain ⟨hs0, hss⟩ := pushAll_settle q tasks hq
  exact ⟨pushAll_length q tasks, pushAll_results q tasks hq, hs0, hss,
    by simp [TaskQueue.onIdle, pcatch],
    by simpa [TaskQueue.onIdle, pcatch] using ht2⟩

/-- C6 witness: two tasks pushed on a fresh queue, the first failing after
5 time units, the second succeeding after 3: the first promise rejects
with the first task's own error, the second fulfils and settles at 8 —
exactly 3 after the first settles — and `onIdle` resolves at 8. -/
theorem claim_C6_witness :
    ((TaskQueue.init.pushAll [{ dur := 5, res := some SendError.other },
        { dur := 3, res := none }]).1.getD 0
        { settleTime := 0, result := none }).result = some SendError.other ∧
    ((TaskQueue.init.pushAll [{ dur := 5, res := some SendError.other },
        { dur := 3, res := none }]).1.getD 1
        { settleTime := 0, result := none }).result = none ∧
    ((TaskQueue.init.pushAll [{ dur := 5, res := some SendError.other },
        { dur := 3, res := none }]).1.getD 1
        { settleTime := 0, result := none }).settleTime
      = ((TaskQueue.init.pushAll [{ dur := 5, res := some SendError.other },
          { dur := 3, res := none }]).1.getD 0
          { settleTime := 0, result := none }).settleTime + 3 ∧
    (TaskQueue.init.pushAll [{ dur := 5, res := some SendError.other },
        { dur := 3, res := none }]).2.onIdle.result = none := by
  have h := claim_C6 TaskQueue.init
    [{ dur := 5, res := some SendError.other }, { dur := 3, res := none }] rfl
  exact ⟨h.2.1 0 (by norm_num), h.2.1 1 (by norm_num),
    h.2.2.2.1 0 (by norm_num), h.2.2.2.2.1⟩

/-- Length of the truncated-with-ellipsis form when the slice end is
non-negative and within the text. -/
lemma truncatedForm_length (s : JSString) (maxLength : ℤ) (h3 : 3 ≤ maxLength)
    (hs : maxLength - 3 ≤ (s.length : ℤ)) :
    (jsSliceFromZero s (maxLength - 3) ++ "...".data).length
      = (maxLength - 3).toNat + 3 := by
  rw [List.length_append, jsSliceFromZero, if_neg (by omega), List.length_take]
  have hdots : ("...".data).length = 3 := rfl
  rw [hdots, Nat.min_eq_left (by omega)]

/-- C7 (amended): for every maximum length `L ≥ 3` the text produced by
`ensureMaxLength` has length at most `L` — an oversized text is truncated
to exactly `L`, the truncation notice is appended and the combination is
re-truncated to `L`.  (For `L < 3` the JS negative `slice` end wraps
around and the bound fails — see the counterexample.) -/
theorem claim_C7 (text : JSString) (maxLength : ℤ) (h3 : 3 ≤ maxLength) :
    ((ensureMaxLength text maxLength).length : ℤ) ≤ maxLength := by
  by_cases hfit : (text.length : ℤ) ≤ maxLength
  · simp [ensureMaxLength, truncate, hfit]
  · have ht1 : truncate text maxLength =
        (jsSliceFromZero text (maxLength - 3) ++ "...".data, true) := by
      rw [truncate, if_neg hfit]
    have hlen1 : ((jsSliceFromZero text (maxLength - 3)
        ++ "...".data).length : ℤ) = maxLength := by
      rw [truncatedForm_length text maxLength h3 (by omega)]
      omega
    have hbig : ¬ ((jsSliceFromZero text (maxLength - 3) ++ "...".data
        ++ truncationNotice).length : ℤ) ≤ maxLength := by
      rw [List.length_append]
      have hnot : (truncationNotice.length : ℤ) = 54 := by decide
      push_cast
      push_cast at hlen1
      omega
    have ht2 : truncate ((jsSliceFromZero text (maxLength - 3) ++ "...".data)
        ++ truncationNotice) maxLength =
        (jsSliceFromZero ((jsSliceFromZero text (maxLength - 3) ++ "...".data)
          ++ truncationNotice) (maxLength - 3) ++ "...".data, true) := by
      rw [truncate, if_neg hbig]
    rw [ensureMaxLength, ht1]
    simp only [Bool.true_eq_false, if_false, ht2]
    rw [truncatedForm_length _ maxLength h3 ?hlong]
    case hlong =>
      rw [List.length_append]
      push_cast
      push_cast at hlen1
      omega
    omega

/-- C7 witness: the amended bound applied at `L = 4` to the five-character
text `"hello"`. -/
theorem claim_C7_witness :
    (3 : ℤ) ≤ 4 ∧ ((ensureMaxLength "hello".data 4).length : ℤ) ≤ 4 :=
  ⟨by decide, claim_C7 "hello".data 4 (by decide)⟩

/-- C7 counterexample: with `maxMessageLength = 0` (the option is not
validated) and the text `"hello"`, the JS `slice(0, -3)` wrap-around makes
`ensureMaxLength` return a 59-character text — the claim's "length at most
L" fails for `L < 3`. -/
theorem claim_C7_counterexample :
    (ensureMaxLength "hello".data 0).length = 59 ∧
    ¬ (((ensureMaxLength "hello".data 0).length : ℤ) ≤ 0) := by
  constructor
  · decide
  · decide

/-- C8 (amended): when extras are enabled and the configured allow-list
contains at least one non-reserved key, the extras block consists of
exactly the allow-listed non-reserved keys defined on the record (in
list order), and is omitted exactly when none of them is defined.  (When
every configured key is reserved the code falls back to rendering all
non-reserved fields — see the counterexample.) -/
theorem claim_C8 (log : LogRecord) (ks : List String)
    (hks : ∃ k, k ∈ ks ∧ k ∉ RESERVED_FIELDS) :
    (∀ k v, (k, v) ∈ (extractExtras log true (some ks)).getD [] →
      k ∈ ks ∧ k ∉ RESERVED_FIELDS ∧ jsGet log k = some v) ∧
    (∀ k v, k ∈ ks → k ∉ RESERVED_FIELDS → jsGet log k = some v →
      (k, v) ∈ (extractExtras log true (some ks)).getD []) ∧
    (extractExtras log true (some ks) = none ↔
      ∀ k, k ∈ ks → k ∉ RESERVED_FIELDS → jsGet log k = none) := by
  obtain ⟨k0, hk0, hnr0⟩ := hks
  have hek : 0 < (ks.filter fun k => !RESERVED_FIELDS.contains k).length := by
    have hmem : k0 ∈ ks.filter fun k => !RESERVED_FIELDS.contains k :=
      List.mem_filter.mpr ⟨hk0, by simpa using hnr0⟩
    exact List.length_pos.mpr (List.ne_nil_of_mem hmem)
  set picked := (ks.filter fun k => !RESERVED_FIELDS.contains k).filterMap
    (fun k => (jsGet log k).map fun v => (k, v)) with hpicked
  have hunfold : extractExtras log true (some ks) =
      if picked.length = 0 then none else some picked := by
    simp only [extractExtras, Option.map_some']
    rw [if_neg (show ¬ (true = false) by simp), if_pos hek]
  have hmem : ∀ k v, (k, v) ∈ picked ↔
      (k ∈ ks ∧ k ∉ RESERVED_FIELDS ∧ jsGet log k = some v) := by
    intro k v
    rw [hpicked]
    simp only [List.mem_filterMap, List.mem_filter, Option.map_eq_some',
      Prod.mk.injEq]
    constructor
    · rintro ⟨a, ⟨ha, hbr⟩, v', hget, rfl, rfl⟩
      exact ⟨ha, by simpa using hbr, hget⟩
    · rintro ⟨ha, hnr, hget⟩
      exact ⟨k, ⟨ha, by simpa using hnr⟩, v, hget, rfl, rfl⟩
  refine ⟨?_, ?_, ?_⟩
  · intro k v hkv
    rw [hunfold] at hkv
    by_cases hp : picked.length = 0
    · rw [if_pos hp] at hkv
      simp at hkv
    · rw [if_neg hp] at hkv
      exact (hmem k v).mp (by simpa using hkv)
  · intro k v hk hnr hget
    have hin : (k, v) ∈ picked := (hmem k v).mpr ⟨hk, hnr, hget⟩
    have hp : ¬ picked.length = 0 := by
      intro h
      rw [List.length_eq_zero] at h
      rw [h] at hin
      simp at hin
    rw [hunfold, if_neg hp]
    simpa using hin
  · rw [hunfold]
    constructor
    · intro hE k hk hnr
      by_cases hp : picked.length = 0
      · rw [List.length_eq_zero, hpicked, List.filterMap_eq_nil_iff] at hp
        cases hget : jsGet log k with
        | none => rfl
        | some v =>
          have hkf : k ∈ ks.filter fun k => !RESERVED_FIELDS.contains k :=
            List.mem_filter.mpr ⟨hk, by simpa using hnr⟩
          have := hp k hkf
          rw [hget] at this
          simp at this
      · rw [if_neg hp] at hE
        simp at hE
    · intro hall
      have hp : picked = [] := by
        rw [hpicked, List.filterMap_eq_nil_iff]
        intro a ha
        rw [List.mem_filter] at ha
        rw [hall a ha.1 (by simpa using ha.2)]
        rfl
      rw [if_pos (by simp [hp])]

/-- C8 witness: allow-list `['foo']` against a record with fields `foo`
and `skip`: the block contains `foo` and cannot contain `skip`. -/
theorem claim_C8_witness :
    ("foo", "1") ∈ (extractExtras [("foo", some "1"), ("skip", some "2")]
      true (some ["foo"])).getD [] ∧
    ("skip", "2") ∉ (extractExtras [("foo", some "1"), ("skip", some "2")]
      true (some ["foo"])).getD [] := by
  have h := claim_C8 [("foo", some "1"), ("skip", some "2")] ["foo"]
    ⟨"foo", by decide, by decide⟩
  refine ⟨h.2.1 "foo" "1" (by decide) (by decide) (by decide), fun hm => ?_⟩
  have := (h.1 "skip" "2" hm).1
  simp at this

/-- C8 counterexample: with the allow-list `['level']` (every entry
reserved) and a record carrying only the field `skip`, the code falls
back to rendering all non-reserved fields, so the extras block contains
`skip` — a field outside the allow-list — where the claim requires the
block to be omitted. -/
theorem claim_C8_counterexample :
    extractExtras [("skip", some "1")] true (some ["level"])
      = some [("skip", "1")] ∧
    "skip" ∉ (["level"] : List String) := by
  constructor
  · decide
  · decide

end PinoTelegram
